import Mathlib

/-!
Verification of the git-diary pipeline (a Rust program that reads recent
git reflog activity, summarizes it with a language model, and persists a
Markdown diary).  Each Rust function that the properties below talk about
is shallowly embedded as a Lean definition; external collaborators
(the git2 repository handle, the OpenAI client, the wall clock, the
filesystem) are modeled by the data they deliver to the embedded code.
-/

namespace GitDiary

/-! ## Core domain types (src/domain.rs) -/

/-- Record `Commit` from domain.rs: a commit message together with its epoch-second
timestamp (Rust `i64`, modeled as `Int`). -/
structure Commit where
  message : String
  time : Int
deriving DecidableEq

/-! ### Calendar conversion, modeling chrono

domain.rs formats `Commit.time` via `DateTime::from_timestamp(time, 0)`
followed by `format("%Y-%m-%d %H:%M:%S")`.  the chrono conversion uses the
proleptic Gregorian calendar; we embed it with the standard
civil-from-days algorithm, and model the out-of-range
failure of `from_timestamp` with the date range chrono documents (years -262143 to 262142). -/

/-- Days since 1970-01-01 to (year, month, day) in the proleptic Gregorian
calendar (the conversion chrono performs internally).  The era is the floor
quotient by 146097; Lean `Int` division is Euclidean, which for this
positive divisor is exactly the floor quotient, so no truncation
pre-adjustment is needed. -/
def civilFromDays (z0 : Int) : Int × Int × Int :=
  let z := z0 + 719468
  let era : Int := z / 146097
  let doe : Int := z - era * 146097
  let yoe : Int := (doe - doe / 1460 + doe / 36524 - doe / 146096) / 365
  let y : Int := yoe + era * 400
  let doy : Int := doe - (365 * yoe + yoe / 4 - yoe / 100)
  let mp : Int := (5 * doy + 2) / 153
  let d : Int := doy - (153 * mp + 2) / 5 + 1
  let m : Int := if mp < 10 then mp + 3 else mp - 9
  (if m ≤ 2 then y + 1 else y, m, d)

/-- Convert (year, month, day) to days since 1970-01-01, inverse of `civilFromDays`;
used only to state the timestamp range chrono supports. -/
def daysFromCivil (y m d : Int) : Int :=
  let y := if m ≤ 2 then y - 1 else y
  let era : Int := y / 400
  let yoe : Int := y - era * 400
  let doy : Int := (153 * (if 2 < m then m - 3 else m + 9) + 2) / 5 + d - 1
  let doe : Int := yoe * 365 + yoe / 4 - yoe / 100 + doy
  era * 146097 + doe - 719468

/-- Zero-pad a natural number to at least two digits. -/
def pad2 (n : Nat) : String :=
  if n < 10 then "0" ++ toString n else toString n

/-- Zero-pad a natural number to at least four digits. -/
def pad4 (n : Nat) : String :=
  if n < 10 then "000" ++ toString n
  else if n < 100 then "00" ++ toString n
  else if n < 1000 then "0" ++ toString n
  else toString n

/-- The chrono `%Y` directive: the year zero-padded to 4 digits; years outside
0..=9999 carry an explicit sign. -/
def formatYear (y : Int) : String :=
  if y < 0 then "-" ++ pad4 y.natAbs
  else if y ≤ 9999 then pad4 y.toNat
  else "+" ++ toString y.toNat

/-- Render an epoch-second value with the chrono pattern
`%Y-%m-%d %H:%M:%S`. -/
def formatTimestamp (t : Int) : String :=
  let days := t.ediv 86400
  let sod := (t.emod 86400).toNat
  let ymd := civilFromDays days
  formatYear ymd.1 ++ "-" ++ pad2 ymd.2.1.toNat ++ "-" ++ pad2 ymd.2.2.toNat
    ++ " " ++ pad2 (sod / 3600) ++ ":" ++ pad2 (sod % 3600 / 60) ++ ":" ++ pad2 (sod % 60)

/-- The smallest epoch second that chrono `DateTime::from_timestamp` accepts
(midnight of January 1, year -262143). -/
def chronoMinSecs : Int := daysFromCivil (-262143) 1 1 * 86400

/-- The largest epoch second that chrono `DateTime::from_timestamp` accepts
(23:59:59 of December 31, year 262142). -/
def chronoMaxSecs : Int := daysFromCivil 262142 12 31 * 86400 + 86399

/-- Function `Commit::datetime` from domain.rs: `DateTime::from_timestamp(self.time, 0)`
(`None` outside the range chrono supports) mapped through
`format("%Y-%m-%d %H:%M:%S")`. -/
def Commit.datetime (c : Commit) : Option String :=
  if chronoMinSecs ≤ c.time ∧ c.time ≤ chronoMaxSecs then
    some (formatTimestamp c.time)
  else
    none

/-- The `Display` impl for `Commit` from domain.rs: the `datetime()`
rendering with `Invalid Date` substituted when it is `None`, then a colon
and a space, then the message. -/
def Commit.display (c : Commit) : String :=
  (c.datetime.getD "Invalid Date") ++ ": " ++ c.message

/-- Record `DiaryContent` from domain.rs. -/
structure DiaryContent where
  commits : List Commit
  summary : String
  start_date : String
  end_date : String

example : formatTimestamp 1704067200 = "2024-01-01 00:00:00" := by decide
example : formatTimestamp 1714989869 = "2024-05-06 10:04:29" := by decide
example : formatTimestamp (-1) = "1969-12-31 23:59:59" := by decide
example : civilFromDays (-719528) = (0, 1, 1) := by decide
example : daysFromCivil (-262143) 1 1 = -96465292 := by decide
example : chronoMinSecs = -8334601228800 := by decide
example : chronoMaxSecs = 8210266876799 := by decide
example : (Commit.mk "x" 1704067200).datetime = some "2024-01-01 00:00:00" := by decide
example : (Commit.mk "x" 9000000000000000).datetime = none := by decide
example : (Commit.mk "x" (-8334601228800)).datetime
    = some "-262143-01-01 00:00:00" := by decide
example : (Commit.mk "x" (-8334601228801)).datetime = none := by decide

/-! ## Document storage (src/storage.rs) -/

/-- Record `DiaryStorageImpl` from storage.rs: holds the configured base directory. -/
structure DiaryStorageImpl where
  base_dir : String

/-- Rust `str::replace` on character lists: replace every non-overlapping
occurrence of the (non-empty) pattern `p :: ps` with `rep`, scanning left to
right. -/
def replaceAllAux (p : Char) (ps : List Char) (rep : List Char) : List Char → List Char
  | [] => []
  | c :: rest =>
    if (p :: ps).isPrefixOf (c :: rest) then
      rep ++ replaceAllAux p ps rep (rest.drop ps.length)
    else
      c :: replaceAllAux p ps rep rest
termination_by l => l.length
decreasing_by
  · simp [List.length_drop]
    omega
  · simp

/-- Rust `str::replace(pat, rep)` (an empty pattern is left untouched, a case
storage.rs never exercises since its pattern is `"-"`). -/
def replaceAll (pat rep s : String) : String :=
  match pat.data with
  | [] => s
  | p :: ps => ⟨replaceAllAux p ps rep.data s.data⟩

/-- Function `DiaryStorageImpl::generate_file_name` from storage.rs: the base
directory, then `/git-diary-`, then `start_date` with `-` replaced by the
empty string, then `-to-`, then `end_date` likewise, then `.md`. -/
def DiaryStorageImpl.generate_file_name (s : DiaryStorageImpl) (content : DiaryContent) : String :=
  s.base_dir ++ "/git-diary-" ++ replaceAll "-" "" content.start_date
    ++ "-to-" ++ replaceAll "-" "" content.end_date ++ ".md"

/-- Function `DiaryStorageImpl::format_markdown_content` from storage.rs: a `push_str`
loop over `content.commits.iter().rev()` building the bullet list, spliced
into the fixed Markdown skeleton. -/
def DiaryStorageImpl.format_markdown_content (_s : DiaryStorageImpl) (content : DiaryContent) : String :=
  let commit_logs :=
    content.commits.reverse.foldl (fun logs c => logs ++ ("- " ++ c.display ++ "\n")) ""
  "# Git Diary (" ++ content.start_date ++ " – " ++ content.end_date ++ ")"
    ++ "\n\n## Commit Logs\n\n" ++ commit_logs
    ++ "\n\n## AI-generated Summary\n\n" ++ content.summary ++ "\n"

/-! ## Git history source (src/git.rs) -/

/-- One `HEAD` reflog entry as git.rs consumes it: `reflog.message()`
(absent when the stored message is not valid UTF-8) and
`reflog.committer().when().seconds()`. -/
structure ReflogEntry where
  message : Option String
  time : Int

/-- Record `GitRepositoryImpl` from git.rs. Opening the repository and reading its
`HEAD` reflog (`git2::Repository::open` / `repo.reflog("HEAD")`) are external
fallible operations; the model carries their combined outcome: either an
error or the reflog entry sequence in iteration (newest-first) order. -/
structure GitRepositoryImpl (ε : Type) where
  reflog : Except ε (List ReflogEntry)

/-- The `for reflog in reflogs` loop of `get_commits_since`: walk the entries
in order, `break` at the first entry older than `timestamp`, otherwise push a
`Commit` with the message of the entry (or `"No message"` when absent) and its
committer timestamp. -/
def commitsLoop (timestamp : Int) : List ReflogEntry → List Commit
  | [] => []
  | e :: rest =>
    if e.time < timestamp then []
    else ⟨e.message.getD "No message", e.time⟩ :: commitsLoop timestamp rest

/-- Function `GitRepositoryImpl::get_commits_since` from git.rs: propagate a
repository/reflog error with `?`, otherwise run the collection loop. -/
def GitRepositoryImpl.get_commits_since (g : GitRepositoryImpl ε) (timestamp : Int) :
    Except ε (List Commit) := do
  let reflogs ← g.reflog
  return commitsLoop timestamp reflogs

/-! ## AI summarizer (src/ai.rs) -/

/-- The `content` field of a chat-completion choice's message
(`choice.message.content`), absent when the provider returns none. -/
structure ChatResponseMessage where
  content : Option String

/-- One response fragment (`choice`) of a chat-completion response. -/
structure ChatChoice where
  message : ChatResponseMessage

/-- A chat-completion response: the ordered fragments the provider returned. -/
structure ChatResponse where
  choices : List ChatChoice

/-- Record `AISummarizerImpl` from ai.rs. The OpenAI client is external; the model
carries its behavior as a function from the commits being summarized (which
determine the request) to the provider outcome: an error (network, auth,
malformed response) or a `ChatResponse`. -/
structure AISummarizerImpl (ε : Type) where
  respond : List Commit → Except ε ChatResponse

/-- Function `AISummarizerImpl::summarize_commits` from ai.rs: send the request,
propagate a provider error with `?`, then build `summary` by a `push_str`
loop over `response.choices`, substituting `"No content"` for a fragment
whose `content` is absent. -/
def AISummarizerImpl.summarize_commits (a : AISummarizerImpl ε) (commits : List Commit) :
    Except ε String := do
  let response ← a.respond commits
  let summary := response.choices.foldl
    (fun summary choice => summary ++ choice.message.content.getD "No content") ""
  return summary

/-! ## Clock (src/main.rs) -/

/-- Function `DateTimeProviderImpl::now` from main.rs: `Local::now()`.  The system
clock is external; the model takes the epoch-second instant `clock` the call
reads and returns it. -/
def DateTimeProviderImpl.now (clock : Int) : Int := clock

/-- Function `DateTimeProviderImpl::days_ago` from main.rs:
`Local::now() - Duration::days(days)`, its own independent clock read minus
exactly `days * 86400` seconds (chrono `Duration::days`). -/
def DateTimeProviderImpl.days_ago (clock : Int) (days : Int) : Int :=
  clock - days * 86400

/-! ## Orchestrator (src/domain.rs, `DiaryGenerator`) -/

/-- A `chrono::DateTime<Local>` value as the orchestrator observes it:
its epoch-second `timestamp()` and its `format("%Y-%m-%d")` rendering in
the local zone. -/
structure LocalDateTime where
  timestamp : Int
  dateString : String

/-- Record `DiaryGenerator` from domain.rs: the four injected collaborators
(`GitRepository`, `AISummarizer`, `DiaryStorage`, `DateTimeProvider` trait
objects, embedded as function fields) plus the `days_to_include`
configuration.  `anyhow` errors are opaque propagated values of type `ε`. -/
structure DiaryGenerator (ε : Type) where
  get_commits_since : Int → Except ε (List Commit)
  summarize_commits : List Commit → Except ε String
  save_diary : DiaryContent → Except ε String
  now : LocalDateTime
  days_ago : Int → LocalDateTime
  days_to_include : Int

/-- Function `DiaryGenerator::format_commit_logs` from domain.rs: a header line
naming `days_to_include`, then one display line per commit, iterating
`commits.iter().rev()`. -/
def DiaryGenerator.format_commit_logs (g : DiaryGenerator ε) (commits : List Commit) : String :=
  commits.reverse.foldl (fun logs c => logs ++ (c.display ++ "\n"))
    ("Last " ++ toString g.days_to_include ++ " days commits:\n")

/-- Function `DiaryGenerator::generate_diary` from domain.rs: compute the window from
the clock, fetch commits (`?`), format and print the preview (a console side
effect, computed then discarded here), summarize (`?`), assemble
`DiaryContent`, save (`?`), return the file path. -/
def DiaryGenerator.generate_diary (g : DiaryGenerator ε) : Except ε String := do
  let now := g.now
  let days_ago := g.days_ago g.days_to_include
  let start_date := days_ago.dateString
  let end_date := now.dateString
  let commits ← g.get_commits_since days_ago.timestamp
  let _commit_logs := g.format_commit_logs commits
  let summary ← g.summarize_commits commits
  let content : DiaryContent :=
    { commits := commits, summary := summary, start_date := start_date, end_date := end_date }
  let file_path ← g.save_diary content
  return file_path

/-! ## Helper lemmas -/

/-- Concatenation of a list of strings, in order. -/
def joinStrings : List String → String
  | [] => ""
  | s :: rest => s ++ joinStrings rest

theorem foldl_append_joinStrings (f : α → String) :
    ∀ (l : List α) (init : String),
      l.foldl (fun acc a => acc ++ f a) init = init ++ joinStrings (l.map f)
  | [], init => by simp [joinStrings, String.append_empty]
  | a :: l, init => by
    rw [List.map_cons, List.foldl_cons, foldl_append_joinStrings f l (init ++ f a),
      joinStrings, String.append_assoc]

theorem replaceAllAux_dash :
    ∀ l : List Char, replaceAllAux '-' [] [] l = l.filter (fun c => c ≠ '-')
  | [] => by simp [replaceAllAux]
  | c :: rest => by
    rw [replaceAllAux]
    by_cases h : c = '-'
    · subst h
      simp [List.isPrefixOf, replaceAllAux_dash rest]
    · simp [List.isPrefixOf, h, Ne.symm h, replaceAllAux_dash rest]

theorem replaceAll_dash (s : String) :
    replaceAll "-" "" s = String.mk (s.data.filter (fun c => c ≠ '-')) := by
  have h : replaceAll "-" "" s = String.mk (replaceAllAux '-' [] [] s.data) := rfl
  rw [h, replaceAllAux_dash]

theorem except_ok_bind (a : α) (f : α → Except ε β) :
    Except.bind (Except.ok a) f = f a := rfl

theorem except_error_bind (e : ε) (f : α → Except ε β) :
    Except.bind (Except.error e : Except ε α) f = Except.error e := rfl

theorem except_bind_pure (x : Except ε α) : Except.bind x Except.ok = x := by
  cases x <;> rfl

theorem commitsLoop_eq_takeWhile (t : Int) :
    ∀ l : List ReflogEntry,
      commitsLoop t l
        = (l.takeWhile (fun e => decide (t ≤ e.time))).map
            (fun e => ⟨e.message.getD "No message", e.time⟩)
  | [] => by simp [commitsLoop]
  | e :: rest => by
    rw [commitsLoop]
    by_cases h : e.time < t
    · rw [if_pos h, List.takeWhile_cons, if_neg (by simpa using h)]
      rfl
    · rw [if_neg h, List.takeWhile_cons, if_pos (by simpa using not_lt.mp h),
        List.map_cons, commitsLoop_eq_takeWhile t rest]

theorem commitsLoop_mem (t : Int) :
    ∀ l : List ReflogEntry, ∀ c ∈ commitsLoop t l,
      t ≤ c.time ∧ ∃ e ∈ l, c.message = e.message.getD "No message" ∧ c.time = e.time
  | [], c, hc => by simp [commitsLoop] at hc
  | e :: rest, c, hc => by
    rw [commitsLoop] at hc
    by_cases h : e.time < t
    · rw [if_pos h] at hc
      simp at hc
    · rw [if_neg h] at hc
      rcases List.mem_cons.mp hc with h₁ | h₁
      · subst h₁
        exact ⟨not_lt.mp h, e, List.mem_cons_self e rest, rfl, rfl⟩
      · obtain ⟨ht, e', he', hm, htime⟩ := commitsLoop_mem t rest c h₁
        exact ⟨ht, e', List.mem_cons_of_mem e he', hm, htime⟩

theorem commitsLoop_nil_of_all_lt (t : Int) (l : List ReflogEntry)
    (h : ∀ e ∈ l, e.time < t) : commitsLoop t l = [] := by
  cases l with
  | nil => rfl
  | cons e rest =>
    rw [commitsLoop, if_pos (h e (List.mem_cons_self e rest))]

theorem commitsLoop_stop (t : Int) :
    ∀ (l₁ : List ReflogEntry) (e₀ : ReflogEntry) (l₂ : List ReflogEntry), e₀.time < t →
      commitsLoop t (l₁ ++ e₀ :: l₂) = commitsLoop t (l₁ ++ [e₀])
  | [], e₀, l₂, h => by
    rw [List.nil_append, List.nil_append, commitsLoop, commitsLoop, if_pos h, if_pos h]
  | a :: l₁, e₀, l₂, h => by
    rw [List.cons_append, List.cons_append, commitsLoop, commitsLoop]
    by_cases ha : a.time < t
    · rw [if_pos ha, if_pos ha]
    · rw [if_neg ha, if_neg ha, commitsLoop_stop t l₁ e₀ l₂ h]

/-! ## Claim theorems -/

/-- C1: `DiaryStorageImpl::format_markdown_content` produces, in order, the
title line with the en-dash-separated date range, the `## Commit Logs`
heading followed by one bullet per entry in reverse of the input order
(bullet text is the display form of the entry), and the `## AI-generated Summary`
heading followed by the summary verbatim. -/
theorem format_markdown_content_spec (s : DiaryStorageImpl) (content : DiaryContent) :
    s.format_markdown_content content =
      "# Git Diary (" ++ content.start_date ++ " – " ++ content.end_date ++ ")"
        ++ "\n\n## Commit Logs\n\n"
        ++ joinStrings (content.commits.reverse.map (fun c => "- " ++ c.display ++ "\n"))
        ++ "\n\n## AI-generated Summary\n\n" ++ content.summary ++ "\n" := by
  unfold DiaryStorageImpl.format_markdown_content
  rw [foldl_append_joinStrings (fun c => "- " ++ c.display ++ "\n") content.commits.reverse "",
    String.empty_append]

/-- C2: `DiaryStorageImpl::generate_file_name` depends only on `start_date`
and `end_date`, and equals the base directory, `/git-diary-`, the start date
with every `-` character removed (all other characters kept verbatim),
`-to-`, the end date likewise, and `.md`. -/
theorem generate_file_name_spec (s : DiaryStorageImpl) (content : DiaryContent) :
    s.generate_file_name content =
      s.base_dir ++ "/git-diary-"
        ++ String.mk (content.start_date.data.filter (fun c => c ≠ '-'))
        ++ "-to-" ++ String.mk (content.end_date.data.filter (fun c => c ≠ '-')) ++ ".md"
    ∧ ∀ content₂ : DiaryContent,
        content.start_date = content₂.start_date → content.end_date = content₂.end_date →
        s.generate_file_name content = s.generate_file_name content₂ := by
  constructor
  · unfold DiaryStorageImpl.generate_file_name
    rw [replaceAll_dash, replaceAll_dash]
  · intro content₂ h₁ h₂
    unfold DiaryStorageImpl.generate_file_name
    rw [h₁, h₂]

theorem generate_file_name_spec_witness :
    DiaryStorageImpl.generate_file_name ⟨"test_dir"⟩
        ⟨[], "Test", "2024-01-01", "2024-01-07"⟩
      = "test_dir/git-diary-20240101-to-20240107.md"
    ∧ DiaryStorageImpl.generate_file_name ⟨"test_dir"⟩
        ⟨[], "Test", "2024-01-01", "2024-01-07"⟩
      = DiaryStorageImpl.generate_file_name ⟨"test_dir"⟩
        ⟨[], "another summary", "2024-01-01", "2024-01-07"⟩ := by
  have h := generate_file_name_spec ⟨"test_dir"⟩ ⟨[], "Test", "2024-01-01", "2024-01-07"⟩
  refine ⟨?_, h.2 ⟨[], "another summary", "2024-01-01", "2024-01-07"⟩ rfl rfl⟩
  rw [h.1]
  decide

/-- C6: rendering the display form of a `Commit` is total: it is the formatted
timestamp followed by a colon and the message when the epoch value converts
(within the chrono range), and the fixed placeholder `Invalid Date` is
substituted, rather than failing, when it does not. -/
theorem commit_display_total (c : Commit) :
    (∃ s, c.datetime = some s ∧ s = formatTimestamp c.time
        ∧ c.display = s ++ ": " ++ c.message)
    ∨ (c.datetime = none ∧ c.display = "Invalid Date" ++ ": " ++ c.message) := by
  unfold Commit.display Commit.datetime
  by_cases h : chronoMinSecs ≤ c.time ∧ c.time ≤ chronoMaxSecs
  · exact Or.inl ⟨formatTimestamp c.time, by rw [if_pos h], rfl, by rw [if_pos h]; rfl⟩
  · exact Or.inr ⟨by rw [if_neg h], by rw [if_neg h]; rfl⟩

/-- C9: for a non-negative day count, `DateTimeProviderImpl::days_ago` is at
most `DateTimeProviderImpl::now` whenever the clock instant it reads is not
later than the one `now` reads (each call reads the clock independently),
and `days_ago 0` equals `now` at the same fixed instant. -/
theorem days_ago_le_now (t₁ t₂ n : Int) (hn : 0 ≤ n) (ht : t₁ ≤ t₂) :
    DateTimeProviderImpl.days_ago t₁ n ≤ DateTimeProviderImpl.now t₂
    ∧ DateTimeProviderImpl.days_ago t₁ 0 = DateTimeProviderImpl.now t₁ := by
  unfold DateTimeProviderImpl.days_ago DateTimeProviderImpl.now
  constructor
  · have : 0 ≤ n * 86400 := by positivity
    omega
  · omega

theorem days_ago_le_now_witness :
    DateTimeProviderImpl.days_ago 1704067200 7 ≤ DateTimeProviderImpl.now 1704067260
    ∧ DateTimeProviderImpl.days_ago 1704067200 0 = DateTimeProviderImpl.now 1704067200 :=
  days_ago_le_now 1704067200 1704067260 7 (by decide) (by decide)

/-- C4: when the repository opens successfully, `get_commits_since t`
returns (without error) a list in which no commit has a timestamp strictly
below `t`; and when `t` is strictly above the timestamp of every reflog entry,
it returns the empty list, not an error. -/
theorem get_commits_since_lower_bound (g : GitRepositoryImpl ε)
    (reflog : List ReflogEntry) (t : Int) (hg : g.reflog = Except.ok reflog) :
    g.get_commits_since t = Except.ok (commitsLoop t reflog)
    ∧ (∀ c ∈ commitsLoop t reflog, ¬ c.time < t)
    ∧ ((∀ e ∈ reflog, e.time < t) → g.get_commits_since t = Except.ok []) := by
  have hrun : g.get_commits_since t = Except.ok (commitsLoop t reflog) := by
    unfold GitRepositoryImpl.get_commits_since
    rw [hg]
    rfl
  refine ⟨hrun, ?_, ?_⟩
  · intro c hc
    exact not_lt.mpr (commitsLoop_mem t reflog c hc).1
  · intro hall
    rw [hrun, commitsLoop_nil_of_all_lt t reflog hall]

theorem get_commits_since_lower_bound_witness :
    GitRepositoryImpl.get_commits_since
        (⟨Except.ok [⟨some "fix", 10⟩, ⟨none, 3⟩]⟩ : GitRepositoryImpl String) 5
      = Except.ok (commitsLoop 5 [⟨some "fix", 10⟩, ⟨none, 3⟩])
    ∧ (∀ c ∈ commitsLoop 5 [⟨some "fix", 10⟩, ⟨none, 3⟩], ¬ c.time < 5)
    ∧ GitRepositoryImpl.get_commits_since
        (⟨Except.ok [⟨some "fix", 10⟩, ⟨none, 3⟩]⟩ : GitRepositoryImpl String) 20
      = Except.ok [] := by
  have h₁ := get_commits_since_lower_bound
    (⟨Except.ok [⟨some "fix", 10⟩, ⟨none, 3⟩]⟩ : GitRepositoryImpl String)
    [⟨some "fix", 10⟩, ⟨none, 3⟩] 5 rfl
  have h₂ := get_commits_since_lower_bound
    (⟨Except.ok [⟨some "fix", 10⟩, ⟨none, 3⟩]⟩ : GitRepositoryImpl String)
    [⟨some "fix", 10⟩, ⟨none, 3⟩] 20 rfl
  exact ⟨h₁.1, h₁.2.1, h₂.2.2 (by decide)⟩

/-- C10: the collection loop of `get_commits_since` returns exactly the
longest prefix of the reflog iteration whose entries all have timestamp at
least `t` (mapped to commits); in particular, entries after the first
older-than-`t` entry never influence the result. -/
theorem get_commits_since_longest_prefix (t : Int) (reflog : List ReflogEntry) :
    commitsLoop t reflog
      = (reflog.takeWhile (fun e => decide (t ≤ e.time))).map
          (fun e => ⟨e.message.getD "No message", e.time⟩)
    ∧ ∀ l₁ e₀ l₂, reflog = l₁ ++ e₀ :: l₂ → e₀.time < t →
        commitsLoop t reflog = commitsLoop t (l₁ ++ [e₀]) :=
  ⟨commitsLoop_eq_takeWhile t reflog,
    fun l₁ e₀ l₂ hre h => by rw [hre, commitsLoop_stop t l₁ e₀ l₂ h]⟩

theorem get_commits_since_longest_prefix_witness :
    commitsLoop 5 [⟨some "new", 10⟩, ⟨some "old", 3⟩, ⟨some "newer", 12⟩]
      = ([⟨some "new", 10⟩, ⟨some "old", 3⟩,
            (⟨some "newer", 12⟩ : ReflogEntry)].takeWhile (fun e => decide (5 ≤ e.time))).map
          (fun e => ⟨e.message.getD "No message", e.time⟩)
    ∧ commitsLoop 5 [⟨some "new", 10⟩, ⟨some "old", 3⟩, ⟨some "newer", 12⟩]
      = commitsLoop 5 [⟨some "new", 10⟩, ⟨some "old", 3⟩] := by
  have h := get_commits_since_longest_prefix 5
    [⟨some "new", 10⟩, ⟨some "old", 3⟩, ⟨some "newer", 12⟩]
  exact ⟨h.1, h.2 [⟨some "new", 10⟩] ⟨some "old", 3⟩ [⟨some "newer", 12⟩] rfl (by decide)⟩

/-- C7: when the repository opens successfully, every returned commit
carries the committer timestamp of some reflog entry together with the
message of that entry verbatim, with the fixed placeholder `No message` substituted when
the message of the entry is absent — the call still succeeds. -/
theorem get_commits_since_messages (g : GitRepositoryImpl ε)
    (reflog : List ReflogEntry) (t : Int) (hg : g.reflog = Except.ok reflog) :
    ∃ cs, g.get_commits_since t = Except.ok cs
      ∧ ∀ c ∈ cs, ∃ e ∈ reflog,
          c.time = e.time
          ∧ (∀ m, e.message = some m → c.message = m)
          ∧ (e.message = none → c.message = "No message") := by
  refine ⟨commitsLoop t reflog, ?_, ?_⟩
  · unfold GitRepositoryImpl.get_commits_since
    rw [hg]
    rfl
  · intro c hc
    obtain ⟨_, e, he, hm, htime⟩ := commitsLoop_mem t reflog c hc
    refine ⟨e, he, htime, ?_, ?_⟩
    · intro m hsome
      rw [hm, hsome]
      rfl
    · intro hnone
      rw [hm, hnone]
      rfl

theorem get_commits_since_messages_witness :
    ∃ cs, GitRepositoryImpl.get_commits_since
        (⟨Except.ok [⟨some "verbatim message", 10⟩, ⟨none, 8⟩]⟩ : GitRepositoryImpl String) 5
      = Except.ok cs
      ∧ ∀ c ∈ cs, ∃ e ∈ [⟨some "verbatim message", 10⟩, (⟨none, 8⟩ : ReflogEntry)],
          c.time = e.time
          ∧ (∀ m, e.message = some m → c.message = m)
          ∧ (e.message = none → c.message = "No message") :=
  get_commits_since_messages
    (⟨Except.ok [⟨some "verbatim message", 10⟩, ⟨none, 8⟩]⟩ : GitRepositoryImpl String)
    [⟨some "verbatim message", 10⟩, ⟨none, 8⟩] 5 rfl

/-- C8: when the provider answers, `summarize_commits` returns the
concatenation of every response fragment in the order returned, with the
fixed placeholder `No content` substituted for a fragment whose textual
content is absent. -/
theorem summarize_commits_concat (a : AISummarizerImpl ε) (commits : List Commit)
    (r : ChatResponse) (h : a.respond commits = Except.ok r) :
    a.summarize_commits commits
      = Except.ok (joinStrings
          (r.choices.map (fun choice => choice.message.content.getD "No content"))) := by
  unfold AISummarizerImpl.summarize_commits
  rw [h]
  show Except.ok (r.choices.foldl
      (fun summary choice => summary ++ choice.message.content.getD "No content") "")
    = _
  rw [foldl_append_joinStrings (fun choice => choice.message.content.getD "No content")
    r.choices "", String.empty_append]

theorem summarize_commits_concat_witness :
    AISummarizerImpl.summarize_commits
        (⟨fun _ => Except.ok ⟨[⟨⟨some "Alpha. "⟩⟩, ⟨⟨none⟩⟩, ⟨⟨some " Beta."⟩⟩]⟩⟩ :
          AISummarizerImpl String) []
      = Except.ok "Alpha. No content Beta." := by
  have h := summarize_commits_concat
    (⟨fun _ => Except.ok ⟨[⟨⟨some "Alpha. "⟩⟩, ⟨⟨none⟩⟩, ⟨⟨some " Beta."⟩⟩]⟩⟩ :
      AISummarizerImpl String) []
    ⟨[⟨⟨some "Alpha. "⟩⟩, ⟨⟨none⟩⟩, ⟨⟨some " Beta."⟩⟩]⟩ rfl
  rw [h]
  rfl

/-- Function `generate_diary` written as the chain of `Except` binds it desugars to. -/
theorem generate_diary_eq (g : DiaryGenerator ε) :
    g.generate_diary
      = Except.bind (g.get_commits_since (g.days_ago g.days_to_include).timestamp)
          (fun commits =>
            Except.bind (g.summarize_commits commits) (fun summary =>
              Except.bind
                (g.save_diary
                  ⟨commits, summary, (g.days_ago g.days_to_include).dateString,
                    g.now.dateString⟩)
                Except.ok)) := rfl

/-- C3: any stage failure of `generate_diary` aborts the remaining stages
and the error propagates unmodified: a fetch error is returned whatever
summarizer and storage the generator holds (so neither is invoked); a
summarizer error after a successful fetch is returned whatever storage the
generator holds (so no document is written); a storage error is returned
as-is. -/
theorem generate_diary_error_propagation (g : DiaryGenerator ε) (e : ε) :
    (g.get_commits_since (g.days_ago g.days_to_include).timestamp = Except.error e →
      ∀ s d, DiaryGenerator.generate_diary
          { g with summarize_commits := s, save_diary := d } = Except.error e)
    ∧ (∀ commits,
        g.get_commits_since (g.days_ago g.days_to_include).timestamp = Except.ok commits →
        g.summarize_commits commits = Except.error e →
        ∀ d, DiaryGenerator.generate_diary { g with save_diary := d } = Except.error e)
    ∧ (∀ commits summary,
        g.get_commits_since (g.days_ago g.days_to_include).timestamp = Except.ok commits →
        g.summarize_commits commits = Except.ok summary →
        g.save_diary
            ⟨commits, summary, (g.days_ago g.days_to_include).dateString, g.now.dateString⟩
          = Except.error e →
        g.generate_diary = Except.error e) := by
  refine ⟨?_, ?_, ?_⟩
  · intro hget s d
    rw [generate_diary_eq]
    dsimp only
    rw [hget, except_error_bind]
  · intro commits hget hsum d
    rw [generate_diary_eq]
    dsimp only
    rw [hget, except_ok_bind, hsum, except_error_bind]
  · intro commits summary hget hsum hsave
    rw [generate_diary_eq, hget, except_ok_bind, hsum, except_ok_bind, hsave,
      except_error_bind]

theorem generate_diary_error_propagation_witness :
    DiaryGenerator.generate_diary
        (⟨fun _ => Except.error "git error", fun _ => Except.ok "sum", fun _ => Except.ok "path",
          ⟨1704585600, "2024-01-07"⟩, fun _ => ⟨1704067200, "2024-01-01"⟩, 7⟩ :
          DiaryGenerator String)
      = Except.error "git error"
    ∧ DiaryGenerator.generate_diary
        (⟨fun _ => Except.ok [], fun _ => Except.error "ai error", fun _ => Except.ok "path",
          ⟨1704585600, "2024-01-07"⟩, fun _ => ⟨1704067200, "2024-01-01"⟩, 7⟩ :
          DiaryGenerator String)
      = Except.error "ai error"
    ∧ DiaryGenerator.generate_diary
        (⟨fun _ => Except.ok [], fun _ => Except.ok "sum", fun _ => Except.error "storage error",
          ⟨1704585600, "2024-01-07"⟩, fun _ => ⟨1704067200, "2024-01-01"⟩, 7⟩ :
          DiaryGenerator String)
      = Except.error "storage error" := by
  refine ⟨?_, ?_, ?_⟩
  · exact (generate_diary_error_propagation
      (⟨fun _ => Except.error "git error", fun _ => Except.ok "sum", fun _ => Except.ok "path",
        ⟨1704585600, "2024-01-07"⟩, fun _ => ⟨1704067200, "2024-01-01"⟩, 7⟩ :
        DiaryGenerator String) "git error").1 rfl
      (fun _ => Except.ok "sum") (fun _ => Except.ok "path")
  · exact (generate_diary_error_propagation
      (⟨fun _ => Except.ok [], fun _ => Except.error "ai error", fun _ => Except.ok "path",
        ⟨1704585600, "2024-01-07"⟩, fun _ => ⟨1704067200, "2024-01-01"⟩, 7⟩ :
        DiaryGenerator String) "ai error").2.1 [] rfl rfl (fun _ => Except.ok "path")
  · exact (generate_diary_error_propagation
      (⟨fun _ => Except.ok [], fun _ => Except.ok "sum", fun _ => Except.error "storage error",
        ⟨1704585600, "2024-01-07"⟩, fun _ => ⟨1704067200, "2024-01-01"⟩, 7⟩ :
        DiaryGenerator String) "storage error").2.2 [] "sum" rfl rfl rfl

/-- C5: when the history source returns an empty commit list,
`generate_diary` still runs the summarizer on that empty list and hands the
storage a `DiaryContent` with an empty entry list, the exact
summary string from the summarizer, and the clock-derived start and end dates; the overall
result is whatever the storage returns for that content. -/
theorem generate_diary_empty_commits (g : DiaryGenerator ε) (summary : String)
    (hget : g.get_commits_since (g.days_ago g.days_to_include).timestamp = Except.ok [])
    (hsum : g.summarize_commits [] = Except.ok summary) :
    g.generate_diary
      = g.save_diary
          ⟨[], summary, (g.days_ago g.days_to_include).dateString, g.now.dateString⟩ := by
  rw [generate_diary_eq, hget, except_ok_bind, hsum, except_ok_bind, except_bind_pure]

theorem generate_diary_empty_commits_witness :
    DiaryGenerator.generate_diary
        (⟨fun _ => Except.ok [], fun _ => Except.ok "No activity",
          fun content => Except.ok (content.start_date ++ " " ++ content.summary),
          ⟨1704585600, "2024-01-07"⟩, fun _ => ⟨1704067200, "2024-01-01"⟩, 7⟩ :
          DiaryGenerator String)
      = Except.ok "2024-01-01 No activity" := by
  have h := generate_diary_empty_commits
    (⟨fun _ => Except.ok [], fun _ => Except.ok "No activity",
      fun content => Except.ok (content.start_date ++ " " ++ content.summary),
      ⟨1704585600, "2024-01-07"⟩, fun _ => ⟨1704067200, "2024-01-01"⟩, 7⟩ :
      DiaryGenerator String) "No activity" rfl rfl
  rw [h]
  rfl

end GitDiary
